import Mathlib

/-!
Verification model of the offstage snapshot workflow.

The Rust sources are embedded shallowly:

* `src/git.rs` (`GitRepository`) becomes a pure state machine over `RepoState`:
  the working directory, index, HEAD tree, merge-metadata files and the stash
  list are association lists from repository-relative paths to file contents.
  Each effectful libgit2 primitive becomes an explicit state transformer; the
  primitives that the Rust code can observe failing (`stash_save`, `fs::write`,
  `fs::remove_file`) can fail in the model as well, with the fault channels of
  the underlying library recorded inside the state.
* `src/workflow.rs` (`run`, `Workflow`) becomes a driver over an environment
  that fixes the outcome of every collaborator call, and produces the list of
  calls it made (an event trace), so that temporal claims about the driver are
  statements about that trace.
* `src/main.rs` (the prototype binary) is embedded separately as
  `main_prototype` / `main_restore_merge_status`.

Semantics of the underlying library follow the repository's own documentation
of it: `git stash` resets the working tree and index to HEAD and clears the
merge metadata (src/main.rs:47-49, src/git.rs:49-50), and re-applying a stash
restores saved file contents but resurrects files whose deletion was pending
(src/git.rs:49-51 and spec §5: "stash-apply resurrects deletions"); a hard
reset moves index and tracked working-tree files to HEAD, leaves untracked
files alone and clears the in-progress merge state.
-/

deriving instance DecidableEq for Except

namespace Offstage

/-- A file system fragment / tree / index: an association list from paths to
file contents.  Lookup favours the first matching entry. -/
abbrev FMap := List (String × String)

/-- Lookup of a path in an association list (first match wins). -/
def lookv : FMap → String → Option String
  | [], _ => none
  | (a, b) :: m, k => if a = k then some b else lookv m k

/-- The keys of an association list. -/
def keysOf (m : FMap) : List String := m.map Prod.fst

/-- Remove every binding of key `k`. -/
def delk : FMap → String → FMap
  | [], _ => []
  | (a, b) :: m, k => if a = k then delk m k else (a, b) :: delk m k

/-- Set the binding of key `k` (shadowing any previous one). -/
def setv (m : FMap) (k v : String) : FMap := (k, v) :: m

/-- Keep only the bindings whose key satisfies `p`. -/
def filterKeys (p : String → Bool) (m : FMap) : FMap :=
  m.filter (fun e => p e.1)

@[simp] theorem lookv_nil (k : String) : lookv [] k = none := rfl

theorem lookv_cons (a b : String) (m : FMap) (k : String) :
    lookv ((a, b) :: m) k = if a = k then some b else lookv m k := rfl

theorem lookv_append (m₁ m₂ : FMap) (k : String) :
    lookv (m₁ ++ m₂) k =
      match lookv m₁ k with
      | some v => some v
      | none => lookv m₂ k := by
  induction m₁ with
  | nil => simp [lookv]
  | cons e m ih =>
    obtain ⟨a, b⟩ := e
    by_cases h : a = k <;> simp [lookv, h, ih]

theorem lookv_setv (m : FMap) (k v q : String) :
    lookv (setv m k v) q = if k = q then some v else lookv m q := rfl

theorem lookv_delk (m : FMap) (k q : String) :
    lookv (delk m k) q = if q = k then none else lookv m q := by
  induction m with
  | nil => simp [delk]
  | cons e m ih =>
    obtain ⟨a, b⟩ := e
    by_cases hak : a = k
    · rw [delk, if_pos hak, ih, lookv_cons]
      by_cases hqk : q = k
      · simp [hqk]
      · have haq : ¬ a = q := fun h => hqk (h ▸ hak : q = k)
        simp [hqk, haq]
    · rw [delk, if_neg hak, lookv_cons, lookv_cons]
      by_cases haq : a = q
      · have hqk : ¬ q = k := fun h => hak (haq.trans h)
        simp [haq, hqk]
      · rw [if_neg haq, if_neg haq, ih]

theorem lookv_filterKeys (p : String → Bool) (m : FMap) (q : String) :
    lookv (filterKeys p m) q = if p q then lookv m q else none := by
  induction m with
  | nil => simp [filterKeys, lookv]
  | cons e m ih =>
    obtain ⟨a, b⟩ := e
    by_cases hpa : p a
    · rw [filterKeys, List.filter_cons_of_pos (by simpa using hpa)]
      rw [lookv_cons, lookv_cons]
      by_cases haq : a = q
      · subst haq; simp [hpa]
      · rw [if_neg haq, if_neg haq]; exact ih
    · rw [filterKeys, List.filter_cons_of_neg (by simpa using hpa)]
      rw [lookv_cons]
      by_cases haq : a = q
      · subst haq; simp [hpa] at *; exact ih
      · rw [if_neg haq]; exact ih

theorem isSome_lookv_iff_mem_keys (m : FMap) (q : String) :
    (lookv m q).isSome = true ↔ q ∈ keysOf m := by
  induction m with
  | nil => simp [lookv, keysOf]
  | cons e m ih =>
    obtain ⟨a, b⟩ := e
    rw [lookv_cons]
    by_cases h : a = q
    · subst h; simp [keysOf]
    · rw [if_neg h]
      simp only [keysOf, List.map_cons, List.mem_cons]
      constructor
      · intro hm; exact Or.inr (ih.mp hm)
      · rintro (hh | hm)
        · exact absurd hh.symm h
        · exact ih.mpr hm

theorem lookv_none_of_not_mem_keys {m : FMap} {q : String}
    (h : q ∉ keysOf m) : lookv m q = none := by
  cases hl : lookv m q with
  | none => rfl
  | some v =>
    exact absurd ((isSome_lookv_iff_mem_keys m q).mp (by simp [hl])) h

/-! ## Data model (src/git.rs:441-459) -/

/-- Errors of the underlying version-control library and of the engine.
`notFound` models `git2::ErrorCode::NotFound`; `emptyCommit` is the
distinguished "Prevented an empty git commit." error (src/git.rs:69);
`unstagedConflict` is the distinguished merge-conflict error of
`merge_modifications` (src/git.rs:133). -/
inductive GitError where
  | notFound
  | emptyCommit
  | unstagedConflict
  | other (msg : String)
  deriving DecidableEq, Repr

/-- The three merge-metadata files under the repository's internal
directory. -/
inductive MergeFile where
  | mhead
  | mmode
  | mmsg
  deriving DecidableEq, Repr

/-- `MergeStatus` (src/git.rs:454-459): the contents of `MERGE_HEAD`,
`MERGE_MODE` and `MERGE_MSG`; a field is `none` when the file did not exist
at capture. -/
structure MergeStatus where
  merge_head : Option String
  merge_mode : Option String
  merge_msg : Option String
  deriving DecidableEq, Repr

/-- `Stash` (src/git.rs:448-452): the stash id together with the merge
status captured immediately before the stash. -/
structure Stash where
  stash_id : Nat
  merge_status : MergeStatus
  deriving DecidableEq, Repr

/-- The payload of the unstaged diff buffer (src/git.rs:180-210): for each
partially staged path, the index-side content the patch expects and the
workdir-side content it produces.  The Rust code serialises this into a
unified-diff byte buffer; the model keeps it structured. -/
abbrev PatchData := List (String × Option String × Option String)

/-- `Snapshot` (src/git.rs:441-446). -/
structure Snapshot where
  staged_files : List String
  backup_stash : Option Stash
  unstaged_diff : Option PatchData
  deriving DecidableEq, Repr

/-- An entry of the repository's stash list: the saved (tracked) working-tree
files and the saved index. -/
structure StashEntry where
  sid : Nat
  wfiles : FMap
  ifiles : FMap
  deriving DecidableEq, Repr

/-- Observable effects of the git-level operations, recorded in order. -/
inductive GEvent where
  | readMerge (f : MergeFile)
  | wroteMerge (f : MergeFile)
  | stashSaved
  | stashApplied
  | deletedFile (p : String)
  | hidUnstagedHunks
  | didHardReset
  | droppedStash
  | stagedMods
  | appliedPatch
  deriving DecidableEq, Repr

/-- The full repository state.  `head = none` models a repository with no
commits (unborn HEAD).  `stashFault` injects a failure of the library's
`stash_save` primitive, and the `writeFault*` flags inject failures of
`fs::write` on the corresponding merge-metadata file — these model the error
paths the Rust code handles.  `log` records the events so far. -/
structure RepoState where
  head : Option FMap
  index : FMap
  workdir : FMap
  mergeHead : Option String
  mergeMode : Option String
  mergeMsg : Option String
  stashes : List StashEntry
  nextId : Nat
  stashFault : Option String
  writeFaultHead : Bool
  writeFaultMode : Bool
  writeFaultMsg : Bool
  log : List GEvent
  deriving DecidableEq, Repr

/-- The HEAD tree, as a map; the empty map when the branch is unborn (the
Rust code diffs against `None` in that case, src/git.rs:229-233). -/
def headMap (s : RepoState) : FMap := s.head.getD []

/-- A path is tracked when it is in the index `i` or in the HEAD tree
`hm`. -/
def trackedOn (i hm : FMap) (p : String) : Bool :=
  (lookv i p).isSome || (lookv hm p).isSome

/-- Reading one of the three merge-metadata files. -/
def mergeField (s : RepoState) : MergeFile → Option String
  | .mhead => s.mergeHead
  | .mmode => s.mergeMode
  | .mmsg => s.mergeMsg

/-- The injected `fs::write` fault flag of one merge-metadata file. -/
def writeFault (s : RepoState) : MergeFile → Bool
  | .mhead => s.writeFaultHead
  | .mmode => s.writeFaultMode
  | .mmsg => s.writeFaultMsg

/-- Set one merge-metadata file. -/
def setMergeField (s : RepoState) : MergeFile → String → RepoState
  | .mhead, c => { s with mergeHead := some c }
  | .mmode, c => { s with mergeMode := some c }
  | .mmsg, c => { s with mergeMsg := some c }

/-! ## Diff queries (src/git.rs:228-289) -/

/-- `GitRepository::get_staged_files` (src/git.rs:228-251): the paths of the
HEAD-tree-vs-index diff.  With an unborn branch the diff is taken against the
empty tree. -/
def get_staged_files (s : RepoState) : List String :=
  (keysOf (headMap s) ++ keysOf s.index).filter
    (fun p => !(lookv (headMap s) p == lookv s.index p))

/-- The paths of the index-vs-workdir diff (`diff_index_to_workdir`,
src/git.rs:256-269).  Renames are not modelled, so the old-file and new-file
path sets coincide and the `include_from_files` flag of the Rust code does
not change the result. -/
def unstagedPaths (s : RepoState) : List String :=
  (keysOf s.index ++ keysOf s.workdir).filter
    (fun p => !(lookv s.index p == lookv s.workdir p))

/-- `GitRepository::get_partially_staged_files` (src/git.rs:253-276): the
intersection of the staged and the unstaged path sets.
`include_from_files` selects old-file paths as well; without renames it is
irrelevant (kept for signature fidelity). -/
def get_partially_staged_files (_include_from_files : Bool) (s : RepoState) :
    List String :=
  (get_staged_files s).filter (fun p => (unstagedPaths s).contains p)

/-- `GitRepository::get_deleted_files` (src/git.rs:278-289): paths whose
index-vs-workdir delta has status `Deleted` — in the index but absent from
the working directory. -/
def get_deleted_files (s : RepoState) : List String :=
  (keysOf s.index).filter (fun p => (lookv s.workdir p).isNone)

/-! ## Library primitives -/

/-- `Repository::reset(head, ResetType::Hard)` via `hard_reset`
(src/git.rs:136-142): fails when HEAD is unborn; otherwise sets the index to
the HEAD tree, sets every tracked file of the working directory to its HEAD
content (removing tracked files that are not in HEAD), leaves untracked
files alone, and clears the in-progress merge state. -/
def hard_reset (s : RepoState) : Except GitError (Unit × RepoState) :=
  match s.head with
  | none => .error (.other "reference 'refs/heads/master' not found")
  | some h =>
      .ok ((), { s with
        workdir := filterKeys (fun p => !trackedOn s.index h p) s.workdir ++ h,
        index := h,
        mergeHead := none, mergeMode := none, mergeMsg := none,
        log := s.log ++ [.didHardReset] })

/-- Is there anything for `stash_save` to record?  Nothing to stash iff no
tracked path differs from HEAD in either the index or the working
directory (untracked files are not stashed under the default flags). -/
def nothingToStashB (s : RepoState) : Bool :=
  (keysOf s.index ++ keysOf (headMap s)).all
    (fun p => (lookv s.index p == lookv (headMap s) p) &&
              (lookv s.workdir p == lookv (headMap s) p))

/-- `Repository::stash_save` (called at src/git.rs:314-316): errors with the
injected fault if one is set; reports `NotFound` when there is nothing to
stash; otherwise records the tracked working-tree files and the index in a
new stash entry and then — like `git stash` — resets the working directory
and index to HEAD and clears the merge metadata (the Rust code documents
both effects: src/git.rs:49-50, src/main.rs:47-49). -/
def stash_save (s : RepoState) : Except GitError (Nat × RepoState) :=
  match s.stashFault with
  | some msg => .error (.other msg)
  | none =>
      if nothingToStashB s then .error .notFound
      else
        match s.head with
        | none => .error (.other "cannot stash without a HEAD commit")
        | some h =>
            .ok (s.nextId, { s with
              stashes := ⟨s.nextId,
                          filterKeys (fun p => trackedOn s.index h p) s.workdir,
                          s.index⟩ :: s.stashes,
              nextId := s.nextId + 1,
              workdir := filterKeys (fun p => !trackedOn s.index h p) s.workdir ++ h,
              index := h,
              mergeHead := none, mergeMode := none, mergeMsg := none,
              log := s.log ++ [.stashSaved] })

/-- Find a stash entry by id (first match, like `stash_foreach` starting at
index 0 in `get_stash_index_from_id`, src/git.rs:144-165). -/
def findStash : List StashEntry → Nat → Option StashEntry
  | [], _ => none
  | e :: es, i => if e.sid = i then some e else findStash es i

/-- `GitRepository::apply_stash` (src/git.rs:167-178) with
reinstate-index semantics: overlays the saved working-tree files onto the
working directory and the saved index onto the index.  Files whose deletion
was pending are not re-deleted — "stash-apply resurrects deletions"
(spec §5, and the workaround at src/git.rs:49-51). -/
def apply_stash (stash_id : Nat) (s : RepoState) :
    Except GitError (Unit × RepoState) :=
  match findStash s.stashes stash_id with
  | none => .error (.other "Could not find a backup stash with that id.")
  | some e =>
      .ok ((), { s with
        workdir := e.wfiles ++ s.workdir,
        index := e.ifiles ++ s.index,
        log := s.log ++ [.stashApplied] })

/-- One `fs::write` of a merge-metadata file (src/git.rs:379, 393, 404).
The attempt is recorded in the log even when the write fails. -/
def write_merge_file (f : MergeFile) (c : String) (s : RepoState) :
    Except GitError Unit × RepoState :=
  let s1 := { s with log := s.log ++ [.wroteMerge f] }
  if writeFault s f then
    (.error (.other "Encountered an error when restoring a merge file."), s1)
  else
    (.ok (), setMergeField s1 f c)

/-- `GitRepository::restore_merge_status` (src/git.rs:370-417): computes all
three write results first — attempting every write — and only then returns
the first error, in MERGE_HEAD, MERGE_MODE, MERGE_MSG order.  Fields that
were absent at capture are not written. -/
def restore_merge_status (ms : MergeStatus) (s : RepoState) :
    Except GitError Unit × RepoState :=
  let w1 : Except GitError Unit × RepoState :=
    match ms.merge_head with
    | none => (.ok (), s)
    | some c => write_merge_file .mhead c s
  let w2 : Except GitError Unit × RepoState :=
    match ms.merge_mode with
    | none => (.ok (), w1.2)
    | some c => write_merge_file .mmode c w1.2
  let w3 : Except GitError Unit × RepoState :=
    match ms.merge_msg with
    | none => (.ok (), w2.2)
    | some c => write_merge_file .mmsg c w2.2
  (match w1.1, w2.1, w3.1 with
   | .error e, _, _ => .error e
   | .ok _, .error e, _ => .error e
   | .ok _, .ok _, .error e => .error e
   | .ok _, .ok _, .ok _ => .ok (), w3.2)

/-- `GitRepository::save_merge_status` (src/git.rs:338-368): read the three
merge-metadata files (a missing file reads as `none`). -/
def save_merge_status (s : RepoState) : MergeStatus × RepoState :=
  (⟨s.mergeHead, s.mergeMode, s.mergeMsg⟩,
   { s with log := s.log ++ [.readMerge .mhead, .readMerge .mmode,
                             .readMerge .mmsg] })

/-- `GitRepository::delete_files` (src/git.rs:427-438): `fs::remove_file` on
each path in order; a missing file is an error (`remove_file` fails with
`NotFound`), which aborts the loop. -/
def delete_files (files : List String) (s : RepoState) :
    Except GitError (Unit × RepoState) :=
  match files with
  | [] => .ok ((), s)
  | p :: ps =>
      if (lookv s.workdir p).isSome then
        delete_files ps { s with workdir := delk s.workdir p,
                                 log := s.log ++ [.deletedFile p] }
      else
        .error (.other "Encountered error when deleting a file.")

/-- Overlay the index contents of the given paths onto the working
directory (forced `checkout_index` restricted to `paths`,
without updating the index). -/
def checkoutPaths (paths : List String) (i w : FMap) : FMap :=
  match paths with
  | [] => w
  | p :: ps =>
      checkoutPaths ps i
        (match lookv i p with
         | some c => setv w p c
         | none => w)

/-- `GitRepository::hide_partially_staged_changes` (src/git.rs:212-226):
forced checkout from the index, restricted to the partially staged paths.
When that set is empty no pathspec is configured, and libgit2's
`checkout_index` then applies to every index path. -/
def hide_partially_staged_changes (s : RepoState) :
    Except GitError (Unit × RepoState) :=
  let ps := get_partially_staged_files false s
  let paths := if ps.isEmpty then keysOf s.index else ps
  .ok ((), { s with workdir := checkoutPaths paths s.index s.workdir,
                    log := s.log ++ [.hidUnstagedHunks] })

/-! ## SnapshotEngine (src/git.rs:43-117, 291-336) -/

/-- `GitRepository::save_unstaged_diff` (src/git.rs:180-210): a patch
(index → workdir) covering the partially staged files; `none` when no file
is partially staged. -/
def save_unstaged_diff (s : RepoState) : Option PatchData :=
  let ps := get_partially_staged_files true s
  if ps.isEmpty then none
  else some (ps.map (fun p => (p, lookv s.index p, lookv s.workdir p)))

/-- `GitRepository::save_snapshot_stash` (src/git.rs:291-336): `Ok(None)` on
an empty repository; otherwise capture the merge status, `stash_save`, and
on success immediately re-apply the stash and re-write the merge status.
`NotFound` from `stash_save` becomes `Ok(None)`; any other `stash_save`
error is propagated. -/
def save_snapshot_stash (s : RepoState) :
    Except GitError (Option Stash × RepoState) :=
  if s.head.isNone then .ok (none, s)
  else
    let merge_status := (save_merge_status s).1
    let s1 := (save_merge_status s).2
    match stash_save s1 with
    | .ok (stash_id, s2) =>
        match apply_stash stash_id s2 with
        | .error e => .error e
        | .ok ((), s3) =>
            match (restore_merge_status merge_status s3).1 with
            | .error e => .error e
            | .ok () =>
                .ok (some ⟨stash_id, merge_status⟩,
                     (restore_merge_status merge_status s3).2)
    | .error .notFound => .ok (none, s1)
    | .error e => .error e

/-- `GitRepository::save_snapshot` (src/git.rs:43-63): enumerate pending
deletions, compute the unstaged diff, create (and re-apply) the backup
stash, re-delete the pending deletions, hide the unstaged hunks of
partially staged files. -/
def save_snapshot (staged_files : List String) (s : RepoState) :
    Except GitError (Snapshot × RepoState) :=
  let deleted_files := get_deleted_files s
  let unstaged_diff := save_unstaged_diff s
  match save_snapshot_stash s with
  | .error e => .error e
  | .ok (backup_stash, s1) =>
      match delete_files deleted_files s1 with
      | .error e => .error e
      | .ok ((), s2) =>
          match hide_partially_staged_changes s2 with
          | .error e => .error e
          | .ok ((), s3) =>
              .ok (⟨staged_files, backup_stash, unstaged_diff⟩, s3)

/-- `GitRepository::restore_snapshot` (src/git.rs:80-93): hard reset to
HEAD; if a backup stash exists, re-apply it (reinstating the index) and
restore the merge status. -/
def restore_snapshot (snapshot : Snapshot) (s : RepoState) :
    Except GitError (Unit × RepoState) :=
  match hard_reset s with
  | .error e => .error e
  | .ok ((), s1) =>
      match snapshot.backup_stash with
      | none => .ok ((), s1)
      | some backup_stash =>
          match apply_stash backup_stash.stash_id s1 with
          | .error e => .error e
          | .ok ((), s2) =>
              match (restore_merge_status backup_stash.merge_status s2).1 with
              | .error e => .error e
              | .ok () =>
                  .ok ((), (restore_merge_status backup_stash.merge_status s2).2)

/-- Drop the first stash entry with the given id. -/
def dropStash : List StashEntry → Nat → List StashEntry
  | [], _ => []
  | e :: es, i => if e.sid = i then es else e :: dropStash es i

/-- `GitRepository::clean_snapshot` (src/git.rs:95-117): look the backup
stash up by id and drop it; an absent entry is an error. -/
def clean_snapshot (snapshot : Snapshot) (s : RepoState) :
    Except GitError (Unit × RepoState) :=
  match snapshot.backup_stash with
  | none => .ok ((), s)
  | some backup_stash =>
      match findStash s.stashes backup_stash.stash_id with
      | none => .error (.other "Could not find a backup stash with that id.")
      | some _ =>
          .ok ((), { s with stashes := dropStash s.stashes backup_stash.stash_id,
                            log := s.log ++ [.droppedStash] })

/-! ## ApplyEngine (src/git.rs:65-78, 119-134) -/

/-- `GitRepository::stage_modifications` (src/git.rs:119-128): `add_all`
with pathspec matching disabled — each listed path is staged from the
working directory; a path no longer on disk is recorded as a deletion. -/
def stage_modifications (snapshot : Snapshot) (s : RepoState) : RepoState :=
  let newIndex :=
    snapshot.staged_files.foldl
      (fun i p =>
        match lookv s.workdir p with
        | some c => setv i p c
        | none => delk i p)
      s.index
  { s with index := newIndex, log := s.log ++ [.stagedMods] }

/-- Apply a saved unstaged patch to the working directory: every hunk must
still find its expected pre-image, otherwise the patch fails to apply. -/
def applyPatch (patch : PatchData) (w : FMap) : Option FMap :=
  if patch.all (fun e => lookv w e.1 == e.2.1) then
    some (patch.foldl
      (fun w e =>
        match e.2.2 with
        | some c => setv w e.1 c
        | none => delk w e.1)
      w)
  else none

/-- `GitRepository::merge_modifications` (src/git.rs:130-134): apply the
unstaged diff to the working directory; failure is the distinguished
unstaged-merge-conflict error. -/
def merge_modifications (patch : PatchData) (s : RepoState) :
    Except GitError (Unit × RepoState) :=
  match applyPatch patch s.workdir with
  | none => .error .unstagedConflict
  | some w => .ok ((), { s with workdir := w, log := s.log ++ [.appliedPatch] })

/-- `GitRepository::apply_modifications` (src/git.rs:65-78): stage the
listed paths, fail with the distinguished empty-commit error if the
post-add index equals HEAD, otherwise re-apply the saved unstaged diff
(when present). -/
def apply_modifications (snapshot : Snapshot) (s : RepoState) :
    Except GitError (Unit × RepoState) :=
  let s1 := stage_modifications snapshot s
  if (get_staged_files s1).isEmpty then
    .error .emptyCommit
  else
    match snapshot.unstaged_diff with
    | none => .ok ((), s1)
    | some patch => merge_modifications patch s1

/-! ## WorkflowDriver (src/workflow.rs)

The driver is embedded over an environment fixing the outcome of every
collaborator call (repository open, staged-file query, snapshot save, the
subprocess, and the three snapshot dispositions), and it returns both its
`Result` and the trace of calls it made. -/

/-- A `PathBuf` as the driver sees it: `toStr` models `Path::to_str`, which
is `none` for a path that is not valid UTF-8. -/
structure RawPath where
  toStr : Option String
  deriving DecidableEq, Repr

/-- Exit status of the user command: exit code, or termination by signal. -/
inductive CmdStat where
  | exited (code : Int)
  | signaled (sig : Int)
  deriving DecidableEq, Repr

/-- `ExitStatus::success()`. -/
def CmdStat.success : CmdStat → Bool
  | .exited c => c == 0
  | .signaled _ => false

/-- Calls the driver makes, in order. -/
inductive DEvent where
  | savedSnapshot
  | spawnedCommand (cmdline : String)
  | calledApply
  | calledRestore
  | calledClean
  deriving DecidableEq, Repr

/-- Outcomes of the driver's collaborator calls for one run. -/
structure DriverEnv where
  openOk : Bool
  stagedFiles : List RawPath
  saveOk : Bool
  spawn : Except String CmdStat
  applyResult : Except String Unit
  restoreResult : Except String Unit
  cleanResult : Except String Unit
  deriving DecidableEq, Repr

/-- The command line assembled in `Workflow::run` (src/workflow.rs:57-67):
the command tokens, then the staged paths that are valid UTF-8
(`filter_map(|path| path.to_str())`), all joined by single spaces. -/
def workflow_command (command : List String) (staged : List RawPath) : String :=
  String.intercalate " " (command ++ staged.filterMap RawPath.toStr)

/-- `Workflow::run` (src/workflow.rs:56-86): assemble the command line,
spawn the shell, dispatch on the exit status (non-zero exit code, then
signal), and on success call `apply_modifications`. -/
def workflow_run (env : DriverEnv) (command : List String) :
    Except String Unit × List DEvent :=
  let cmdline := workflow_command command env.stagedFiles
  match env.spawn with
  | .error e => (.error e, [.spawnedCommand cmdline])
  | .ok status =>
      if status.success then
        (env.applyResult, [.spawnedCommand cmdline, .calledApply])
      else
        match status with
        | .exited code =>
            (.error ("Command failed with status code " ++ toString code ++ "."),
             [.spawnedCommand cmdline])
        | .signaled sig =>
            (.error ("Command was terminated by signal " ++ toString sig ++ "."),
             [.spawnedCommand cmdline])

/-- `run` (src/workflow.rs:12-31) together with `Workflow::prepare`
(src/workflow.rs:39-54): open the repository; if the staged list is empty
return `Ok(())` without a snapshot; otherwise save a snapshot, run the
command phase, on error call `restore` (whose own error is propagated by
`?`, returning early), then call `cleanup` (also with `?`), and finally
return the command-phase result. -/
def driver_run (env : DriverEnv) (command : List String) :
    Except String Unit × List DEvent :=
  if !env.openOk then (.error "Encountered an error when opening the Git repository.", [])
  else if env.stagedFiles.isEmpty then (.ok (), [])
  else if !env.saveOk then (.error "Encountered an error when saving a snapshot.", [])
  else
    let (result, evs) := workflow_run env command
    let evs := DEvent.savedSnapshot :: evs
    match result with
    | .error e =>
        let evs := evs ++ [DEvent.calledRestore]
        match env.restoreResult with
        | .error re => (.error re, evs)
        | .ok () =>
            let evs := evs ++ [DEvent.calledClean]
            match env.cleanResult with
            | .error ce => (.error ce, evs)
            | .ok () => (.error e, evs)
    | .ok () =>
        let evs := evs ++ [DEvent.calledClean]
        match env.cleanResult with
        | .error ce => (.error ce, evs)
        | .ok () => (.ok (), evs)

/-- Number of disposition calls (`apply_modifications`, `restore_snapshot`,
`clean_snapshot`) in a driver trace. -/
def dispositionCount (evs : List DEvent) : Nat :=
  (evs.filter (fun e =>
    e == DEvent.calledApply || e == DEvent.calledRestore ||
    e == DEvent.calledClean)).length

/-! ## The prototype binary (src/main.rs) -/

/-- Collaborator outcomes for one run of the prototype binary.
`stagedFiles` records which paths are staged in the repository; the
prototype never consults it.  `stashSave` is what
`stash_save(&signature, "offstage backup", INCLUDE_UNTRACKED | KEEP_INDEX)`
returns. -/
structure MainEnv where
  openOk : Bool
  stagedFiles : List RawPath
  merge : MergeStatus
  stashSave : Except GitError Nat
  cmdCode : Option Int
  deriving DecidableEq, Repr

/-- How a run of the prototype binary ends. -/
inductive MainOutcome where
  | panicked
  | exited (code : Int)
  deriving DecidableEq, Repr

/-- What the prototype binary did. -/
structure MainResult where
  outcome : MainOutcome
  spawnedCommand : Bool
  stashCreated : Bool
  deriving DecidableEq, Repr

/-- `main` (src/main.rs:10-24) with `save_snapshot_stash`
(src/main.rs:46-66): open the repository (`expect` panics on failure), read
the merge status, `stash_save` unconditionally and `.unwrap()` the result
(panicking on any error, including the nothing-to-stash `NotFound`),
restore the merge status, then always spawn the user command and exit with
its code (1 when there is none). -/
def main_prototype (env : MainEnv) : MainResult :=
  if !env.openOk then ⟨.panicked, false, false⟩
  else
    match env.stashSave with
    | .error _ => ⟨.panicked, false, false⟩
    | .ok _ => ⟨.exited (env.cmdCode.getD 1), true, true⟩

/-- `restore_merge_status` of the prototype (src/main.rs:76-91): the three
writes in sequence, each result unwrapped with `expect` — the first failing
write panics and the remaining writes are never attempted.  Returns whether
it panicked, together with the state reached. -/
def main_restore_merge_status (ms : MergeStatus) (s : RepoState) :
    Bool × RepoState :=
  let w (f : MergeFile) (o : Option String) (s : RepoState) :
      Except GitError Unit × RepoState :=
    match o with
    | none => (.ok (), s)
    | some c => write_merge_file f c s
  match w .mhead ms.merge_head s with
  | (.error _, s1) => (true, s1)
  | (.ok _, s1) =>
      match w .mmode ms.merge_mode s1 with
      | (.error _, s2) => (true, s2)
      | (.ok _, s2) =>
          match w .mmsg ms.merge_msg s2 with
          | (.error _, s3) => (true, s3)
          | (.ok _, s3) => (false, s3)

/-! ## Driver traces -/

theorem workflow_run_trace (env : DriverEnv) (cmd : List String) :
    (workflow_run env cmd).2 =
        [.spawnedCommand (workflow_command cmd env.stagedFiles)] ∨
      (workflow_run env cmd).2 =
        [.spawnedCommand (workflow_command cmd env.stagedFiles),
         .calledApply] := by
  unfold workflow_run
  cases env.spawn with
  | error e => simp
  | ok status =>
      by_cases h : status.success
      · simp [h]
      · cases status with
        | exited code => simp [h]
        | signaled sig => simp [h]

theorem calledClean_not_mem_workflow_run (env : DriverEnv)
    (cmd : List String) : DEvent.calledClean ∉ (workflow_run env cmd).2 := by
  rcases workflow_run_trace env cmd with h | h <;> simp [h]

theorem calledRestore_not_mem_workflow_run (env : DriverEnv)
    (cmd : List String) : DEvent.calledRestore ∉ (workflow_run env cmd).2 := by
  rcases workflow_run_trace env cmd with h | h <;> simp [h]

/-- Environment of a run where the user command fails and the subsequent
restore fails as well. -/
def c2_env : DriverEnv :=
  { openOk := true,
    stagedFiles := [⟨some "a.rs"⟩],
    saveOk := true,
    spawn := .ok (.exited 1),
    applyResult := .ok (),
    restoreResult := .error "Encountered an error when restoring snapshot after another error.",
    cleanResult := .ok () }

/-- C2: when the command phase fails ("Command failed with status code 1.")
and `restore_snapshot` fails too, the driver returns only the restore error:
`workflow.restore()?` (src/workflow.rs:22) propagates the restore error and
drops `result`, so the original error is masked — contradicting the claim
that both errors are surfaced.  (The code's own TODO at src/workflow.rs:16
records the missing aggregation.) -/
theorem c2_restore_error_masks_original :
    (driver_run c2_env ["fmt"]).1 =
        .error "Encountered an error when restoring snapshot after another error." ∧
      (workflow_run c2_env ["fmt"]).1 =
        .error "Command failed with status code 1." ∧
      (driver_run c2_env ["fmt"]).1 ≠
        .error "Command failed with status code 1." := by
  refine ⟨rfl, rfl, ?_⟩
  decide

/-- Environment of a run where the command phase fails and restore fails. -/
def c3_env : DriverEnv :=
  { openOk := true,
    stagedFiles := [⟨some "b.rs"⟩],
    saveOk := true,
    spawn := .ok (.exited 2),
    applyResult := .ok (),
    restoreResult := .error "Could not find a backup stash with id 7.",
    cleanResult := .ok () }

/-- C3 counterexample: a run in which a snapshot was taken but the driver
never invokes `clean_snapshot`, because `workflow.restore()?`
(src/workflow.rs:22) returns early when restore fails, skipping
`workflow.cleanup()` (src/workflow.rs:25). -/
theorem c3_clean_skipped_counterexample :
    DEvent.savedSnapshot ∈ (driver_run c3_env ["fmt"]).2 ∧
      DEvent.calledClean ∉ (driver_run c3_env ["fmt"]).2 := by
  decide

/-- C3 amended: whenever a snapshot was taken, the driver invokes
`clean_snapshot` if and only if it is not the case that the command phase
failed and `restore_snapshot` failed too; on that one path cleanup is
skipped and the snapshot never reaches the Cleaned state. -/
theorem c3_clean_invocation (env : DriverEnv) (cmd : List String)
    (hsnap : DEvent.savedSnapshot ∈ (driver_run env cmd).2) :
    DEvent.calledClean ∈ (driver_run env cmd).2 ↔
      ¬((workflow_run env cmd).1.isOk = false ∧
        env.restoreResult.isOk = false) := by
  by_cases h1 : env.openOk
  case neg => simp [driver_run, h1] at hsnap
  by_cases h2 : env.stagedFiles.isEmpty
  case pos => simp [driver_run, h1, h2] at hsnap
  by_cases h3 : env.saveOk
  case neg => simp [driver_run, h1, h2, h3] at hsnap
  cases hw : workflow_run env cmd with
  | mk r evs =>
    have hclean : DEvent.calledClean ∉ evs := by
      have := calledClean_not_mem_workflow_run env cmd
      rw [hw] at this; exact this
    cases r with
    | ok u =>
        cases u
        cases hc : env.cleanResult <;>
          simp [driver_run, h1, h2, h3, hw, hc, Except.isOk, Except.toBool]
    | error e =>
        cases hr : env.restoreResult with
        | error re =>
            simp [driver_run, h1, h2, h3, hw, hr, hclean, Except.isOk, Except.toBool]
        | ok u =>
            cases u
            cases hc : env.cleanResult <;>
              simp [driver_run, h1, h2, h3, hw, hr, hc, Except.isOk, Except.toBool]

/-- Environment of a fully successful run. -/
def c9_env : DriverEnv :=
  { openOk := true,
    stagedFiles := [⟨some "c.rs"⟩],
    saveOk := true,
    spawn := .ok (.exited 0),
    applyResult := .ok (),
    restoreResult := .ok (),
    cleanResult := .ok () }

/-- C9 counterexample: on a successful run the driver invokes two
dispositions on the same snapshot — `apply_modifications`
(src/workflow.rs:85) and then `clean_snapshot` (src/workflow.rs:25) — so
"exactly one of the three dispositions is invoked" is false. -/
theorem c9_two_dispositions_counterexample :
    DEvent.savedSnapshot ∈ (driver_run c9_env ["fmt"]).2 ∧
      dispositionCount (driver_run c9_env ["fmt"]).2 = 2 := by
  decide

/-- C9 amended: on every run each disposition is invoked at most once on
the snapshot, and once a snapshot is taken at least one disposition is
invoked; but a snapshot is routinely passed to two different dispositions
(apply-then-clean or restore-then-clean), not exactly one. -/
theorem c9_dispositions_at_most_once (env : DriverEnv) (cmd : List String) :
    (driver_run env cmd).2.count DEvent.calledApply ≤ 1 ∧
      (driver_run env cmd).2.count DEvent.calledRestore ≤ 1 ∧
      (driver_run env cmd).2.count DEvent.calledClean ≤ 1 ∧
      (DEvent.savedSnapshot ∈ (driver_run env cmd).2 →
        1 ≤ dispositionCount (driver_run env cmd).2) := by
  by_cases h1 : env.openOk
  case neg => simp [driver_run, h1]
  by_cases h2 : env.stagedFiles.isEmpty
  case pos => simp [driver_run, h1, h2]
  by_cases h3 : env.saveOk
  case neg => simp [driver_run, h1, h2, h3]
  cases hw : workflow_run env cmd with
  | mk r evs =>
    have htr : evs = [.spawnedCommand (workflow_command cmd env.stagedFiles)] ∨
        evs = [.spawnedCommand (workflow_command cmd env.stagedFiles),
               .calledApply] := by
      have := workflow_run_trace env cmd
      rw [hw] at this; exact this
    cases r with
    | ok u =>
        cases u
        rcases htr with he | he <;>
          · subst he
            simp [driver_run, h1, h2, h3, hw]
            cases hc : env.cleanResult <;>
              simp [dispositionCount, List.count_cons, List.count_append]
    | error e =>
        rcases htr with he | he <;>
          · subst he
            cases hr : env.restoreResult with
            | error re =>
                simp [driver_run, h1, h2, h3, hw, hr]
                simp [dispositionCount, List.count_cons, List.count_append]
            | ok u =>
                cases u
                simp [driver_run, h1, h2, h3, hw, hr]
                cases hc : env.cleanResult <;>
                  simp [dispositionCount, List.count_cons, List.count_append]

/-! ## The prototype binary vs the empty-stage short-circuit -/

/-- A repository with one commit, a clean working tree and nothing staged:
`stash_save` reports nothing to stash (`NotFound`). -/
def c5_env_clean : MainEnv :=
  { openOk := true, stagedFiles := [], merge := ⟨none, none, none⟩,
    stashSave := .error .notFound, cmdCode := some 0 }

/-- A repository with nothing staged but a dirty working tree (for example
an untracked file, which `INCLUDE_UNTRACKED` stashes): `stash_save`
succeeds. -/
def c5_env_dirty : MainEnv :=
  { openOk := true, stagedFiles := [], merge := ⟨none, none, none⟩,
    stashSave := .ok 7, cmdCode := some 0 }

/-- C5: the binary's `main` (src/main.rs:10-24) never checks the staged
file list.  With nothing staged and a clean tree it panics at
`stash_save(...).unwrap()` (nothing to stash) instead of exiting with
success, and with nothing staged but a dirty tree it creates a stash and
spawns the user command anyway — contradicting the claim and the
repository's own tests (`test_empty_stage_in_repository_skips_command`,
src/tests/main.rs:33-52; src/tests/tests.rs:38-79). -/
theorem c5_main_ignores_empty_stage :
    c5_env_clean.stagedFiles = [] ∧
      main_prototype c5_env_clean =
        ⟨.panicked, false, false⟩ ∧
      c5_env_dirty.stagedFiles = [] ∧
      main_prototype c5_env_dirty =
        ⟨.exited 0, true, true⟩ :=
  ⟨rfl, rfl, rfl, rfl⟩

/-! ## Command assembly -/

theorem filterMap_toStr_eq (staged : List RawPath) :
    staged.filterMap RawPath.toStr =
      (staged.filter (fun p => p.toStr.isSome)).map
        (fun p => p.toStr.getD "") := by
  induction staged with
  | nil => rfl
  | cons p ps ih =>
    cases h : p.toStr <;>
      simp [List.filterMap_cons, List.filter_cons, h, ih]

theorem filterMap_toStr_filter (staged : List RawPath) :
    (staged.filter (fun p => p.toStr.isSome)).filterMap RawPath.toStr =
      staged.filterMap RawPath.toStr := by
  induction staged with
  | nil => rfl
  | cons p ps ih =>
    cases h : p.toStr <;>
      simp [List.filterMap_cons, List.filter_cons, h, ih]

/-- C10: the shell command string of `Workflow::run` (src/workflow.rs:57-67)
contains, after the command tokens, exactly the staged paths that are valid
UTF-8, in their original order (`filter_map(|path| path.to_str())` silently
omits the others); removing the non-UTF-8 paths beforehand does not change
the string, and the shell is still spawned with that string. -/
theorem c10_command_assembly (cmd : List String) (staged : List RawPath)
    (env : DriverEnv) :
    workflow_command cmd staged =
        String.intercalate " "
          (cmd ++ (staged.filter (fun p => p.toStr.isSome)).map
            (fun p => p.toStr.getD "")) ∧
      workflow_command cmd staged =
        workflow_command cmd (staged.filter (fun p => p.toStr.isSome)) ∧
      (∃ rest, (workflow_run env cmd).2 =
        DEvent.spawnedCommand (workflow_command cmd env.stagedFiles) :: rest) := by
  refine ⟨?_, ?_, ?_⟩
  · rw [workflow_command, filterMap_toStr_eq]
  · rw [workflow_command, workflow_command, filterMap_toStr_filter]
  · rcases workflow_run_trace env cmd with h | h
    · exact ⟨[], h⟩
    · exact ⟨[.calledApply], h⟩

/-! ## Merge-status restoration -/

/-- A repository state whose `MERGE_HEAD` write fails. -/
def c7_state : RepoState :=
  { head := some [("a", "x")], index := [("a", "x")], workdir := [("a", "x")],
    mergeHead := none, mergeMode := none, mergeMsg := none,
    stashes := [], nextId := 0, stashFault := none,
    writeFaultHead := true, writeFaultMode := false, writeFaultMsg := false,
    log := [] }

/-- A captured merge status with `MERGE_HEAD` and `MERGE_MODE` present. -/
def c7_ms : MergeStatus := ⟨some "H", some "M", none⟩

/-- C7 counterexample: the `restore_merge_status` of the prototype binary
(src/main.rs:76-91) `expect`s each write in turn, so when the `MERGE_HEAD`
write fails it panics without ever attempting the `MERGE_MODE` write —
restore does short-circuit on the first failing write. -/
theorem c7_main_restore_short_circuits :
    (main_restore_merge_status c7_ms c7_state).1 = true ∧
      c7_ms.merge_mode.isSome = true ∧
      GEvent.wroteMerge .mmode ∉
        (main_restore_merge_status c7_ms c7_state).2.log := by
  decide

/-- C7 amended: `GitRepository::restore_merge_status` (src/git.rs:370-417)
attempts the write of every present merge-metadata field before returning;
the first error (in MERGE_HEAD, MERGE_MODE, MERGE_MSG order) is returned
only after all three writes have been attempted, and every non-failing
write takes effect.  The prototype `restore_merge_status` in src/main.rs
panics at the first failing write instead. -/
theorem c7_restore_attempts_all_writes (ms : MergeStatus) (s : RepoState) :
    (ms.merge_head.isSome = true →
        GEvent.wroteMerge .mhead ∈ (restore_merge_status ms s).2.log) ∧
      (ms.merge_mode.isSome = true →
        GEvent.wroteMerge .mmode ∈ (restore_merge_status ms s).2.log) ∧
      (ms.merge_msg.isSome = true →
        GEvent.wroteMerge .mmsg ∈ (restore_merge_status ms s).2.log) ∧
      (ms.merge_head.isSome = true → s.writeFaultHead = false →
        (restore_merge_status ms s).2.mergeHead = ms.merge_head) ∧
      (ms.merge_mode.isSome = true → s.writeFaultMode = false →
        (restore_merge_status ms s).2.mergeMode = ms.merge_mode) ∧
      (ms.merge_msg.isSome = true → s.writeFaultMsg = false →
        (restore_merge_status ms s).2.mergeMsg = ms.merge_msg) ∧
      (restore_merge_status ms s).1 =
        (if ms.merge_head.isSome ∧ s.writeFaultHead then
           .error (.other "Encountered an error when restoring a merge file.")
         else if ms.merge_mode.isSome ∧ s.writeFaultMode then
           .error (.other "Encountered an error when restoring a merge file.")
         else if ms.merge_msg.isSome ∧ s.writeFaultMsg then
           .error (.other "Encountered an error when restoring a merge file.")
         else .ok ()) := by
  obtain ⟨mh, mm, mg⟩ := ms
  cases mh <;> cases mm <;> cases mg <;>
    cases hfh : s.writeFaultHead <;>
      cases hfm : s.writeFaultMode <;>
        cases hfg : s.writeFaultMsg <;>
          simp [restore_merge_status, write_merge_file, writeFault,
                setMergeField, hfh, hfm, hfg]

/-- C7 witness: at a concrete merge status and state with no faults, the
attempt of each present write is in the log. -/
theorem c7_restore_attempts_witness :
    GEvent.wroteMerge .mhead ∈
      (restore_merge_status ⟨some "H", some "M", some "S"⟩
        { c7_state with writeFaultHead := false }).2.log :=
  (c7_restore_attempts_all_writes ⟨some "H", some "M", some "S"⟩
    { c7_state with writeFaultHead := false }).1 (by decide)

/-! ## The empty-commit guard -/

/-- C4: `apply_modifications` (src/git.rs:65-78) fails with the
distinguished empty-commit error exactly when, after staging
`snapshot.staged_files` from the working directory, the HEAD-vs-index diff
is empty — equivalently, the post-add index and HEAD agree on every path;
otherwise it proceeds to re-apply the saved unstaged diff (when one was
saved). -/
theorem c4_empty_commit_guard (snapshot : Snapshot) (s : RepoState) :
    (apply_modifications snapshot s = .error .emptyCommit ↔
        get_staged_files (stage_modifications snapshot s) = []) ∧
      (get_staged_files (stage_modifications snapshot s) = [] ↔
        ∀ p, lookv (stage_modifications snapshot s).index p =
          lookv (headMap s) p) ∧
      (¬ get_staged_files (stage_modifications snapshot s) = [] →
        apply_modifications snapshot s =
          match snapshot.unstaged_diff with
          | none => .ok ((), stage_modifications snapshot s)
          | some patch =>
              merge_modifications patch (stage_modifications snapshot s)) := by
  have hhead : headMap (stage_modifications snapshot s) = headMap s := rfl
  refine ⟨?_, ?_, ?_⟩
  · by_cases he : (get_staged_files (stage_modifications snapshot s)).isEmpty
    · have he' : get_staged_files (stage_modifications snapshot s) = [] := by
        simpa [List.isEmpty_iff] using he
      simp [apply_modifications, he, he']
    · simp only [List.isEmpty_iff] at he
      simp only [apply_modifications]
      rw [if_neg (by simpa [List.isEmpty_iff] using he)]
      simp only [he, iff_false]
      cases hd : snapshot.unstaged_diff with
      | none => simp
      | some patch =>
          simp only [merge_modifications]
          cases hp : applyPatch patch (stage_modifications snapshot s).workdir <;>
            simp
  · rw [← hhead]
    generalize stage_modifications snapshot s = t
    constructor
    · intro hnil p
      rw [get_staged_files, List.filter_eq_nil_iff] at hnil
      by_cases hm : p ∈ keysOf (headMap t) ++ keysOf t.index
      · have h2 := hnil p hm
        simp at h2
        exact h2.symm
      · rw [List.mem_append] at hm
        push_neg at hm
        rw [lookv_none_of_not_mem_keys hm.1, lookv_none_of_not_mem_keys hm.2]
    · intro hall
      rw [get_staged_files, List.filter_eq_nil_iff]
      intro p _
      simp [hall p]
  · intro hne
    simp only [apply_modifications]
    rw [if_neg (by simpa [List.isEmpty_iff] using hne)]

/-- A snapshot and state where staging produces a non-empty staged delta. -/
def c4_snap : Snapshot := ⟨["a"], none, none⟩

/-- Companion state for the empty-commit-guard witness. -/
def c4_state : RepoState :=
  { head := some [("a", "x")], index := [("a", "x")], workdir := [("a", "y")],
    mergeHead := none, mergeMode := none, mergeMsg := none,
    stashes := [], nextId := 0, stashFault := none,
    writeFaultHead := false, writeFaultMode := false, writeFaultMsg := false,
    log := [] }

/-- C4 witness: a formatter that modified the staged file leaves a
non-empty staged delta, and `apply_modifications` proceeds instead of
raising the empty-commit error. -/
theorem c4_empty_commit_guard_witness :
    apply_modifications c4_snap c4_state =
      match c4_snap.unstaged_diff with
      | none => .ok ((), stage_modifications c4_snap c4_state)
      | some patch =>
          merge_modifications patch (stage_modifications c4_snap c4_state) :=
  (c4_empty_commit_guard c4_snap c4_state).2.2 (by decide)

/-! ## The backup-stash error policy -/

/-- A repository with no commits, one staged file, and that file deleted
from the working directory. -/
def c6_state_del : RepoState :=
  { head := none, index := [("f", "1")], workdir := [],
    mergeHead := none, mergeMode := none, mergeMsg := none,
    stashes := [], nextId := 0, stashFault := none,
    writeFaultHead := false, writeFaultMode := false, writeFaultMsg := false,
    log := [] }

/-- C6 counterexample: in a repository with no commits but a staged file
whose deletion is pending in the working directory, `save_snapshot` as a
whole does fail — the stash step returns no backup without error, but
`delete_files` then calls `fs::remove_file` on the already-missing path
(src/git.rs:427-438) and that error aborts the save.  So "the call does not
fail when the repository has no commits" is false of `save_snapshot`. -/
theorem c6_empty_repo_save_fails :
    c6_state_del.head = none ∧
      save_snapshot_stash c6_state_del = .ok (none, c6_state_del) ∧
      (save_snapshot ["f"] c6_state_del).isOk = false :=
  ⟨rfl, rfl, rfl⟩

/-- C6 amended: `save_snapshot_stash` (src/git.rs:291-336) returns no
backup and no error when the repository has no commits or when `stash_save`
reports nothing to stash; any other `stash_save` failure aborts
`save_snapshot` with an error; and whenever `save_snapshot` succeeds in
those two backup-less situations the snapshot's `backup_stash` is absent.
(`save_snapshot` itself may still fail after the stash step, as the
counterexample shows.) -/
theorem c6_stash_error_policy (s : RepoState) (files : List String)
    (msg : String) :
    (s.head = none → save_snapshot_stash s = .ok (none, s)) ∧
      (s.head.isSome = true → s.stashFault = none → nothingToStashB s = true →
        save_snapshot_stash s =
          .ok (none, { s with log := s.log ++
            [.readMerge .mhead, .readMerge .mmode, .readMerge .mmsg] })) ∧
      (s.head.isSome = true → s.stashFault = some msg →
        save_snapshot_stash s = .error (.other msg) ∧
          (save_snapshot files s).isOk = false) ∧
      (∀ snap s', save_snapshot files s = .ok (snap, s') →
        s.head = none ∨ nothingToStashB s = true →
          snap.backup_stash = none) := by
  have part1 : s.head = none → save_snapshot_stash s = .ok (none, s) := by
    intro h
    simp [save_snapshot_stash, h]
  have part2 : s.head.isSome = true → s.stashFault = none →
      nothingToStashB s = true →
      save_snapshot_stash s =
        .ok (none, { s with log := s.log ++
          [.readMerge .mhead, .readMerge .mmode, .readMerge .mmsg] }) := by
    obtain ⟨hd, idx, wd, f1, f2, f3, sts, nid, sf, wf1, wf2, wf3, lg⟩ := s
    intro hs hf hn
    obtain ⟨h, hh⟩ := Option.isSome_iff_exists.mp hs
    simp only at hh hf
    subst hh
    subst hf
    have hn1 : nothingToStashB
        ⟨some h, idx, wd, f1, f2, f3, sts, nid, none, wf1, wf2, wf3,
         lg ++ [GEvent.readMerge .mhead, .readMerge .mmode,
                .readMerge .mmsg]⟩ = true := hn
    simp [save_snapshot_stash, save_merge_status, stash_save, hn1]
  have part3 : s.head.isSome = true → s.stashFault = some msg →
      save_snapshot_stash s = .error (.other msg) ∧
        (save_snapshot files s).isOk = false := by
    intro hs hf
    have hstash : save_snapshot_stash s = .error (.other msg) := by
      obtain ⟨hd, idx, wd, f1, f2, f3, sts, nid, sf, wf1, wf2, wf3, lg⟩ := s
      simp only at hs hf
      obtain ⟨h, hh⟩ := Option.isSome_iff_exists.mp hs
      subst hh
      subst hf
      simp [save_snapshot_stash, save_merge_status, stash_save]
    refine ⟨hstash, ?_⟩
    simp [save_snapshot, hstash, Except.isOk, Except.toBool]
  refine ⟨part1, part2, part3, ?_⟩
  intro snap s' hsave hcase
  cases hss : save_snapshot_stash s with
  | error e => simp [save_snapshot, hss] at hsave
  | ok r =>
      obtain ⟨bs, s1⟩ := r
      have hbs : bs = none := by
        rcases hcase with hnone | hnts
        · have h1 := part1 hnone
          rw [hss] at h1
          simp at h1
          exact h1.1
        · by_cases hh : s.head = none
          · have h1 := part1 hh
            rw [hss] at h1
            simp at h1
            exact h1.1
          · have hs : s.head.isSome = true := by
              cases hhd : s.head with
              | none => exact absurd hhd hh
              | some h => simp
            cases hf : s.stashFault with
            | none =>
                have h2 := part2 hs hf hnts
                rw [hss] at h2
                simp at h2
                exact h2.1
            | some m =>
                have h3 : save_snapshot_stash s = .error (.other m) := by
                  obtain ⟨h, hhd⟩ := Option.isSome_iff_exists.mp hs
                  simp [save_snapshot_stash, hhd, save_merge_status,
                        stash_save, hf]
                rw [hss] at h3
                simp at h3
      subst hbs
      simp only [save_snapshot, hss] at hsave
      cases hdel : delete_files (get_deleted_files s) s1 with
      | error e => simp [hdel] at hsave
      | ok r2 =>
          obtain ⟨u, s2⟩ := r2
          cases u
          simp [hdel, hide_partially_staged_changes] at hsave
          rw [← hsave.1]

/-! ## Ordering of the steps of save_snapshot -/

/-- All events satisfying `P` occur before all events satisfying `Q` in
`E`: the trace splits into a `Q`-free prefix and a `P`-free suffix. -/
def precedes (P Q : GEvent → Prop) (E : List GEvent) : Prop :=
  ∃ A B, E = A ++ B ∧ (∀ e ∈ A, ¬ Q e) ∧ (∀ e ∈ B, ¬ P e)

/-- The events `save_merge_status` appends. -/
def mergeReadEvents : List GEvent :=
  [.readMerge .mhead, .readMerge .mmode, .readMerge .mmsg]

/-- The events one run of `restore_merge_status` appends (one write attempt
per present field, in file order). -/
def msWriteEvents (ms : MergeStatus) : List GEvent :=
  (if ms.merge_head.isSome then [GEvent.wroteMerge .mhead] else []) ++
    (if ms.merge_mode.isSome then [GEvent.wroteMerge .mmode] else []) ++
    (if ms.merge_msg.isSome then [GEvent.wroteMerge .mmsg] else [])

theorem msWriteEvents_are_writes (ms : MergeStatus) :
    ∀ e ∈ msWriteEvents ms, ∃ f, e = GEvent.wroteMerge f := by
  intro e he
  rw [msWriteEvents] at he
  simp only [List.mem_append] at he
  rcases he with (he | he) | he
  · refine ⟨.mhead, ?_⟩
    revert he
    split <;> simp
  · refine ⟨.mmode, ?_⟩
    revert he
    split <;> simp
  · refine ⟨.mmsg, ?_⟩
    revert he
    split <;> simp

theorem write_merge_file_log (f : MergeFile) (c : String) (s : RepoState) :
    (write_merge_file f c s).2.log = s.log ++ [.wroteMerge f] := by
  by_cases h : writeFault s f <;>
    cases f <;> simp [write_merge_file, h, setMergeField]

theorem restore_merge_status_log (ms : MergeStatus) (s : RepoState) :
    (restore_merge_status ms s).2.log = s.log ++ msWriteEvents ms := by
  obtain ⟨mh, mm, mg⟩ := ms
  cases mh <;> cases mm <;> cases mg <;>
    simp [restore_merge_status, msWriteEvents, write_merge_file_log]

theorem delete_files_ok_log (files : List String) (s : RepoState)
    (u : Unit) (s' : RepoState)
    (h : delete_files files s = .ok (u, s')) :
    s'.log = s.log ++ files.map GEvent.deletedFile := by
  induction files generalizing s with
  | nil =>
      simp [delete_files] at h
      subst h
      simp
  | cons p ps ih =>
      rw [delete_files] at h
      split at h
      · have := ih _ h
        simp at this
        simpa using this
      · exact absurd h (by simp)

theorem stash_save_ok (s : RepoState) (stash_id : Nat) (s' : RepoState)
    (h : stash_save s = .ok (stash_id, s')) :
    ∃ h0, s.head = some h0 ∧ stash_id = s.nextId ∧
      s' = { s with
        stashes := ⟨s.nextId,
                    filterKeys (fun p => trackedOn s.index h0 p) s.workdir,
                    s.index⟩ :: s.stashes,
        nextId := s.nextId + 1,
        workdir := filterKeys (fun p => !trackedOn s.index h0 p) s.workdir ++ h0,
        index := h0,
        mergeHead := none, mergeMode := none, mergeMsg := none,
        log := s.log ++ [.stashSaved] } := by
  cases hf : s.stashFault with
  | some msg => simp [stash_save, hf] at h
  | none =>
      by_cases hnts : nothingToStashB s
      · simp [stash_save, hf, hnts] at h
      · cases hhd : s.head with
        | none => simp [stash_save, hf, hnts, hhd] at h
        | some h0 =>
            simp [stash_save, hf, hnts, hhd] at h
            exact ⟨h0, rfl, h.1.symm, h.2.symm⟩

theorem findStash_cons_self (i : Nat) (w x : FMap) (es : List StashEntry) :
    findStash (⟨i, w, x⟩ :: es) i = some ⟨i, w, x⟩ := by
  simp [findStash]

theorem apply_stash_found (stash_id : Nat) (s : RepoState) (e : StashEntry)
    (hfind : findStash s.stashes stash_id = some e) :
    apply_stash stash_id s = .ok ((), { s with
      workdir := e.wfiles ++ s.workdir,
      index := e.ifiles ++ s.index,
      log := s.log ++ [.stashApplied] }) := by
  rw [apply_stash, hfind]

/-- `stash_save` immediately followed by `apply_stash` of the returned id
(the sequence of src/git.rs:314-323): the saved tracked files and index are
overlaid back, pending deletions resurrected, merge metadata left
cleared. -/
theorem stash_save_then_apply (s : RepoState) (sid : Nat) (s2 : RepoState)
    (h : stash_save s = .ok (sid, s2)) :
    ∃ h0, s.head = some h0 ∧ sid = s.nextId ∧
      apply_stash sid s2 = .ok ((), { s with
        stashes := ⟨s.nextId,
                    filterKeys (fun p => trackedOn s.index h0 p) s.workdir,
                    s.index⟩ :: s.stashes,
        nextId := s.nextId + 1,
        workdir := filterKeys (fun p => trackedOn s.index h0 p) s.workdir ++
          (filterKeys (fun p => !trackedOn s.index h0 p) s.workdir ++ h0),
        index := s.index ++ h0,
        mergeHead := none, mergeMode := none, mergeMsg := none,
        log := s.log ++ [.stashSaved, .stashApplied] }) := by
  obtain ⟨h0, hh0, hsid, hs2⟩ := stash_save_ok _ _ _ h
  subst hsid
  subst hs2
  refine ⟨h0, hh0, rfl, ?_⟩
  rw [apply_stash_found _ _
      ⟨s.nextId, filterKeys (fun p => trackedOn s.index h0 p) s.workdir,
       s.index⟩
      (findStash_cons_self _ _ _ _)]
  simp


theorem restore_merge_status_result (ms : MergeStatus) (s : RepoState) :
    (restore_merge_status ms s).1 =
      (if ms.merge_head.isSome = true ∧ s.writeFaultHead = true then
         .error (.other "Encountered an error when restoring a merge file.")
       else if ms.merge_mode.isSome = true ∧ s.writeFaultMode = true then
         .error (.other "Encountered an error when restoring a merge file.")
       else if ms.merge_msg.isSome = true ∧ s.writeFaultMsg = true then
         .error (.other "Encountered an error when restoring a merge file.")
       else .ok ()) := by
  obtain ⟨mh, mm, mg⟩ := ms
  cases mh <;> cases mm <;> cases mg <;>
    cases hfh : s.writeFaultHead <;>
      cases hfm : s.writeFaultMode <;>
        cases hfg : s.writeFaultMsg <;>
          simp [restore_merge_status, write_merge_file, writeFault,
                setMergeField, hfh, hfm, hfg]

theorem restore_merge_status_ok (ms : MergeStatus) (s : RepoState)
    (h : (restore_merge_status ms s).1 = .ok ()) :
    (restore_merge_status ms s).2 = { s with
      mergeHead := ms.merge_head.or s.mergeHead,
      mergeMode := ms.merge_mode.or s.mergeMode,
      mergeMsg := ms.merge_msg.or s.mergeMsg,
      log := s.log ++ msWriteEvents ms } := by
  obtain ⟨mh, mm, mg⟩ := ms
  obtain ⟨hd, idx, wd, f1, f2, f3, sts, nid, sf, wf1, wf2, wf3, lg⟩ := s
  cases mh <;> cases mm <;> cases mg <;>
    cases wf1 <;> cases wf2 <;> cases wf3 <;>
      simp_all [restore_merge_status, write_merge_file, writeFault,
                setMergeField, msWriteEvents, Option.or]

theorem lookv_checkoutPaths (ps : List String) (i : FMap) (w : FMap)
    (q : String) :
    lookv (checkoutPaths ps i w) q =
      if q ∈ ps ∧ (lookv i q).isSome = true then lookv i q
      else lookv w q := by
  induction ps generalizing w with
  | nil => simp [checkoutPaths]
  | cons p ps ih =>
      rw [checkoutPaths]
      cases hip : lookv i p with
      | none =>
          rw [ih]
          by_cases hqp : q = p
          · subst hqp
            simp [hip]
          · simp [hqp]
      | some c =>
          rw [ih]
          by_cases hqp : q = p
          · subst hqp
            by_cases hqs : q ∈ ps
            · simp [hip, hqs]
            · simp [hip, hqs, lookv_setv]
          · have : ¬ p = q := fun h => hqp h.symm
            simp [hqp, lookv_setv, this]

theorem keysOf_append (a b : FMap) :
    keysOf (a ++ b) = keysOf a ++ keysOf b := by
  simp [keysOf]

/-- The state after `stash_save` and the immediate re-apply inside
`save_snapshot_stash`, with the merge-metadata reads already logged. -/
def postApplyState (s : RepoState) (h0 : FMap) : RepoState :=
  { s with
    stashes := ⟨s.nextId,
                filterKeys (fun p => trackedOn s.index h0 p) s.workdir,
                s.index⟩ :: s.stashes,
    nextId := s.nextId + 1,
    workdir := filterKeys (fun p => trackedOn s.index h0 p) s.workdir ++
      (filterKeys (fun p => !trackedOn s.index h0 p) s.workdir ++ h0),
    index := s.index ++ h0,
    mergeHead := none, mergeMode := none, mergeMsg := none,
    log := s.log ++ mergeReadEvents ++ [.stashSaved, .stashApplied] }

/-- The merge status captured by `save_snapshot_stash`. -/
def capturedMS (s : RepoState) : MergeStatus :=
  ⟨s.mergeHead, s.mergeMode, s.mergeMsg⟩

/-- Exhaustive characterization of a successful `save_snapshot_stash`
(src/git.rs:291-336): either the repository is empty, or there was nothing
to stash, or a stash was created, re-applied, and the merge status
re-written. -/
theorem save_snapshot_stash_ok_cases (s : RepoState) (bs : Option Stash)
    (s1 : RepoState) (h : save_snapshot_stash s = .ok (bs, s1)) :
    (s.head.isNone = true ∧ bs = none ∧ s1 = s) ∨
      (s.head.isNone = false ∧ s.stashFault = none ∧
        nothingToStashB s = true ∧ bs = none ∧
        s1 = { s with log := s.log ++ mergeReadEvents }) ∨
      (∃ h0, s.head = some h0 ∧ s.stashFault = none ∧
        nothingToStashB s = false ∧
        (restore_merge_status (capturedMS s) (postApplyState s h0)).1 =
          .ok () ∧
        bs = some ⟨s.nextId, capturedMS s⟩ ∧
        s1 = (restore_merge_status (capturedMS s) (postApplyState s h0)).2) := by
  obtain ⟨hd, idx, wd, f1, f2, f3, sts, nid, sf, wf1, wf2, wf3, lg⟩ := s
  cases hd with
  | none =>
      left
      simp [save_snapshot_stash] at h
      exact ⟨rfl, h.1.symm, h.2.symm⟩
  | some h0 =>
      cases sf with
      | some msg =>
          simp [save_snapshot_stash, save_merge_status, stash_save] at h
      | none =>
          cases hnts : nothingToStashB ⟨some h0, idx, wd, f1, f2, f3, sts,
              nid, none, wf1, wf2, wf3, lg⟩ with
          | true =>
              right; left
              have hn1 : nothingToStashB ⟨some h0, idx, wd, f1, f2, f3, sts,
                  nid, none, wf1, wf2, wf3,
                  lg ++ [GEvent.readMerge .mhead, .readMerge .mmode,
                         .readMerge .mmsg]⟩ = true := hnts
              simp [save_snapshot_stash, save_merge_status, stash_save,
                    hn1] at h
              refine ⟨rfl, rfl, rfl, h.1.symm, ?_⟩
              rw [← h.2]
              simp [mergeReadEvents]
          | false =>
              right; right
              have hn1 : nothingToStashB ⟨some h0, idx, wd, f1, f2, f3, sts,
                  nid, none, wf1, wf2, wf3,
                  lg ++ [GEvent.readMerge .mhead, .readMerge .mmode,
                         .readMerge .mmsg]⟩ = false := hnts
              simp [save_snapshot_stash, save_merge_status, stash_save,
                    hn1, apply_stash, findStash] at h
              split at h
              · simp at h
              · simp at h
                rename_i u heq
                refine ⟨h0, rfl, rfl, rfl, ?_, h.1.symm, ?_⟩
                · have hps : (restore_merge_status
                      (capturedMS ⟨some h0, idx, wd, f1, f2, f3, sts, nid,
                        none, wf1, wf2, wf3, lg⟩)
                      (postApplyState ⟨some h0, idx, wd, f1, f2, f3, sts, nid,
                        none, wf1, wf2, wf3, lg⟩ h0)).1 =
                      .ok () := by
                    simp only [capturedMS, postApplyState, mergeReadEvents]
                    simp
                    exact heq
                  exact hps
                · rw [← h.2]
                  simp only [capturedMS, postApplyState, mergeReadEvents]
                  simp

theorem save_snapshot_stash_log (s : RepoState) (bs : Option Stash)
    (s1 : RepoState) (h : save_snapshot_stash s = .ok (bs, s1)) :
    s1.log = s.log ∨ s1.log = s.log ++ mergeReadEvents ∨
      ∃ ms, s1.log = s.log ++ mergeReadEvents ++
        [GEvent.stashSaved, GEvent.stashApplied] ++ msWriteEvents ms := by
  by_cases hhd : s.head.isNone
  · left
    simp [save_snapshot_stash, hhd] at h
    rw [← h.2]
  · rw [save_snapshot_stash, if_neg hhd] at h
    simp only [save_merge_status] at h
    cases hsv : stash_save { s with log := s.log ++
        [GEvent.readMerge .mhead, .readMerge .mmode, .readMerge .mmsg] } with
    | error e =>
        rw [hsv] at h
        cases e with
        | notFound =>
            right; left
            simp at h
            rw [← h.2]
            simp [mergeReadEvents]
        | emptyCommit => simp at h
        | unstagedConflict => simp at h
        | other msg => simp at h
    | ok r =>
        obtain ⟨sid, s2⟩ := r
        obtain ⟨h0, hh0, hsid, happ⟩ := stash_save_then_apply _ _ _ hsv
        simp only [hsv, happ] at h
        split at h
        · simp at h
        · simp at h
          right; right
          obtain ⟨hbs, hs1⟩ := h
          refine ⟨⟨s.mergeHead, s.mergeMode, s.mergeMsg⟩, ?_⟩
          rw [← hs1, restore_merge_status_log]
          simp [mergeReadEvents]

theorem save_snapshot_log_shape (files : List String) (s : RepoState)
    (snap : Snapshot) (s' : RepoState)
    (h : save_snapshot files s = .ok (snap, s')) :
    ∃ SE D, s'.log = s.log ++ SE ++ D ++ [GEvent.hidUnstagedHunks] ∧
      (∀ e ∈ D, ∃ p, e = GEvent.deletedFile p) ∧
      (SE = [] ∨ SE = mergeReadEvents ∨
        ∃ W, SE = mergeReadEvents ++
            [GEvent.stashSaved, GEvent.stashApplied] ++ W ∧
          ∀ e ∈ W, ∃ f, e = GEvent.wroteMerge f) := by
  rw [save_snapshot] at h
  cases hss : save_snapshot_stash s with
  | error e => simp [hss] at h
  | ok r =>
      obtain ⟨bs, s1⟩ := r
      simp only [hss] at h
      cases hdel : delete_files (get_deleted_files s) s1 with
      | error e => simp [hdel] at h
      | ok r2 =>
          obtain ⟨u, s2⟩ := r2
          cases u
          simp [hdel, hide_partially_staged_changes] at h
          have hs'log : s'.log = s2.log ++ [GEvent.hidUnstagedHunks] := by
            rw [← h.2]
          have hs2log : s2.log = s1.log ++
              (get_deleted_files s).map GEvent.deletedFile :=
            delete_files_ok_log _ _ _ _ hdel
          have hDprop : ∀ e ∈ (get_deleted_files s).map GEvent.deletedFile,
              ∃ p, e = GEvent.deletedFile p := by
            intro e he
            simp at he
            obtain ⟨p, _, hp⟩ := he
            exact ⟨p, hp.symm⟩
          rcases save_snapshot_stash_log s bs s1 hss with h1 | h1 | ⟨ms, h1⟩
          · exact ⟨[], (get_deleted_files s).map GEvent.deletedFile,
              by rw [hs'log, hs2log, h1]; try simp, hDprop, Or.inl rfl⟩
          · exact ⟨mergeReadEvents, (get_deleted_files s).map GEvent.deletedFile,
              by rw [hs'log, hs2log, h1]; try simp, hDprop, Or.inr (Or.inl rfl)⟩
          · exact ⟨mergeReadEvents ++ [GEvent.stashSaved, GEvent.stashApplied] ++
                msWriteEvents ms,
              (get_deleted_files s).map GEvent.deletedFile,
              by rw [hs'log, hs2log, h1]; try simp, hDprop,
              Or.inr (Or.inr ⟨msWriteEvents ms, rfl, msWriteEvents_are_writes ms⟩)⟩

/-- C8: within every successful `save_snapshot` (src/git.rs:43-63 with
src/git.rs:291-336), the merge-metadata reads all precede the stash
creation, every re-deletion of a pending deletion comes after the stash
re-apply, and the hiding of partially staged hunks comes after every
re-deletion. -/
theorem c8_save_step_order (files : List String) (s : RepoState)
    (snap : Snapshot) (s' : RepoState)
    (hsave : save_snapshot files s = .ok (snap, s')) :
    ∃ E, s'.log = s.log ++ E ∧
      precedes (fun e => ∃ f, e = .readMerge f) (fun e => e = .stashSaved) E ∧
      precedes (fun e => e = .stashApplied)
        (fun e => ∃ p, e = .deletedFile p) E ∧
      precedes (fun e => ∃ p, e = .deletedFile p)
        (fun e => e = .hidUnstagedHunks) E := by
  obtain ⟨SE, D, hlog, hD, hSE⟩ := save_snapshot_log_shape files s snap s' hsave
  have hDnoRead : ∀ e ∈ D, ¬ ∃ f, e = GEvent.readMerge f := by
    intro e he
    obtain ⟨p, hp⟩ := hD e he
    subst hp
    simp
  have hDnoApplied : ∀ e ∈ D, ¬ e = GEvent.stashApplied := by
    intro e he
    obtain ⟨p, hp⟩ := hD e he
    subst hp
    simp
  have hDnoHid : ∀ e ∈ D, ¬ e = GEvent.hidUnstagedHunks := by
    intro e he
    obtain ⟨p, hp⟩ := hD e he
    subst hp
    simp
  have hSEnoDel : ∀ e ∈ SE, ¬ ∃ p, e = GEvent.deletedFile p := by
    intro e he
    rcases hSE with hse | hse | ⟨W, hse, hW⟩
    · subst hse
      simp at he
    · subst hse
      simp [mergeReadEvents] at he
      rcases he with rfl | rfl | rfl <;> simp
    · subst hse
      rcases List.mem_append.mp he with he2 | he2
      · rcases List.mem_append.mp he2 with he3 | he3
        · simp [mergeReadEvents] at he3
          rcases he3 with rfl | rfl | rfl <;> simp
        · simp at he3
          rcases he3 with rfl | rfl <;> simp
      · obtain ⟨f, hf⟩ := hW e he2
        subst hf
        simp
  have hSEnoHid : ∀ e ∈ SE, ¬ e = GEvent.hidUnstagedHunks := by
    intro e he
    rcases hSE with hse | hse | ⟨W, hse, hW⟩
    · subst hse
      simp at he
    · subst hse
      simp [mergeReadEvents] at he
      rcases he with rfl | rfl | rfl <;> simp
    · subst hse
      rcases List.mem_append.mp he with he2 | he2
      · rcases List.mem_append.mp he2 with he3 | he3
        · simp [mergeReadEvents] at he3
          rcases he3 with rfl | rfl | rfl <;> simp
        · simp at he3
          rcases he3 with rfl | rfl <;> simp
      · obtain ⟨f, hf⟩ := hW e he2
        subst hf
        simp
  refine ⟨SE ++ D ++ [.hidUnstagedHunks], by rw [hlog]; simp, ?_, ?_, ?_⟩
  · -- merge reads all precede the stash creation
    rcases hSE with hse | hse | ⟨W, hse, hW⟩
    · subst hse
      refine ⟨[], [] ++ D ++ [.hidUnstagedHunks], by simp, by simp, ?_⟩
      intro e he
      simp only [List.nil_append] at he
      rcases List.mem_append.mp he with he2 | he2
      · exact hDnoRead e he2
      · simp at he2
        subst he2
        simp
    · subst hse
      refine ⟨mergeReadEvents, D ++ [.hidUnstagedHunks], by simp, ?_, ?_⟩
      · intro e he
        simp [mergeReadEvents] at he
        rcases he with rfl | rfl | rfl <;> simp
      · intro e he
        rcases List.mem_append.mp he with he2 | he2
        · exact hDnoRead e he2
        · simp at he2
          subst he2
          simp
    · subst hse
      refine ⟨mergeReadEvents,
        ([GEvent.stashSaved, GEvent.stashApplied] ++ W) ++ D ++
          [.hidUnstagedHunks], by simp, ?_, ?_⟩
      · intro e he
        simp [mergeReadEvents] at he
        rcases he with rfl | rfl | rfl <;> simp
      · intro e he
        rcases List.mem_append.mp he with he2 | he2
        · rcases List.mem_append.mp he2 with he3 | he3
          · rcases List.mem_append.mp he3 with he4 | he4
            · simp at he4
              rcases he4 with rfl | rfl <;> simp
            · obtain ⟨f, hf⟩ := hW e he4
              subst hf
              simp
          · exact hDnoRead e he3
        · simp at he2
          subst he2
          simp
  · -- re-deletions happen after the stash re-apply
    rcases hSE with hse | hse | ⟨W, hse, hW⟩
    · subst hse
      refine ⟨[], [] ++ D ++ [.hidUnstagedHunks], by simp, by simp, ?_⟩
      intro e he
      simp only [List.nil_append] at he
      rcases List.mem_append.mp he with he2 | he2
      · exact hDnoApplied e he2
      · simp at he2
        subst he2
        simp
    · subst hse
      refine ⟨[], mergeReadEvents ++ D ++ [.hidUnstagedHunks], by simp,
        by simp, ?_⟩
      intro e he
      rcases List.mem_append.mp he with he2 | he2
      · rcases List.mem_append.mp he2 with he3 | he3
        · simp [mergeReadEvents] at he3
          rcases he3 with rfl | rfl | rfl <;> simp
        · exact hDnoApplied e he3
      · simp at he2
        subst he2
        simp
    · subst hse
      refine ⟨mergeReadEvents ++ [GEvent.stashSaved, GEvent.stashApplied] ++ W,
        D ++ [.hidUnstagedHunks], by simp, ?_, ?_⟩
      · intro e he
        rcases List.mem_append.mp he with he2 | he2
        · rcases List.mem_append.mp he2 with he3 | he3
          · simp [mergeReadEvents] at he3
            rcases he3 with rfl | rfl | rfl <;> simp
          · simp at he3
            rcases he3 with rfl | rfl <;> simp
        · obtain ⟨f, hf⟩ := hW e he2
          subst hf
          simp
      · intro e he
        rcases List.mem_append.mp he with he2 | he2
        · exact hDnoApplied e he2
        · simp at he2
          subst he2
          simp
  · -- hiding happens after every re-deletion
    refine ⟨SE ++ D, [.hidUnstagedHunks], by simp, ?_, ?_⟩
    · intro e he
      rcases List.mem_append.mp he with he2 | he2
      · exact hSEnoHid e he2
      · exact hDnoHid e he2
    · intro e he
      simp at he
      subst he
      simp

/-! ## The save/restore round trip -/

theorem nothingToStash_spec (s : RepoState) (h : nothingToStashB s = true) :
    ∀ p, p ∈ keysOf s.index ∨ p ∈ keysOf (headMap s) →
      lookv s.index p = lookv (headMap s) p ∧
        lookv s.workdir p = lookv (headMap s) p := by
  intro p hp
  have hp2 : p ∈ keysOf s.index ++ keysOf (headMap s) :=
    List.mem_append.mpr hp
  have h2 := List.all_eq_true.mp h p hp2
  simpa [Bool.and_eq_true] using h2

theorem staged_nil_of_nothingToStash (s : RepoState)
    (h : nothingToStashB s = true) : get_staged_files s = [] := by
  rw [get_staged_files, List.filter_eq_nil_iff]
  intro p hp
  rw [List.mem_append] at hp
  have h2 := (nothingToStash_spec s h p hp.symm).1
  simp [h2]

theorem mem_staged_mem_keys (s : RepoState) (q : String)
    (h : q ∈ get_staged_files s) :
    q ∈ keysOf (headMap s) ++ keysOf s.index := by
  rw [get_staged_files] at h
  exact List.mem_of_mem_filter h

theorem deleted_nil_of_workdir (s : RepoState)
    (hWd : ∀ p ∈ keysOf s.index, (lookv s.workdir p).isSome = true) :
    get_deleted_files s = [] := by
  rw [get_deleted_files, List.filter_eq_nil_iff]
  intro p hp
  obtain ⟨v, hv⟩ := Option.isSome_iff_exists.mp (hWd p hp)
  simp [hv]

/-- The state reached inside `restore_snapshot` after the hard reset and
the stash re-apply. -/
def applyAfterReset (t : RepoState) (h0 : FMap) (e : StashEntry) :
    RepoState :=
  { t with
    workdir := e.wfiles ++
      (filterKeys (fun p => !trackedOn t.index h0 p) t.workdir ++ h0),
    index := e.ifiles ++ h0,
    mergeHead := none, mergeMode := none, mergeMsg := none,
    log := t.log ++ [.didHardReset, .stashApplied] }

theorem restore_snapshot_some (files : List String) (ud : Option PatchData)
    (sid : Nat) (ms : MergeStatus) (t : RepoState) (h0 : FMap)
    (e : StashEntry)
    (hhd : t.head = some h0)
    (hfind : findStash t.stashes sid = some e)
    (hok : (restore_merge_status ms (applyAfterReset t h0 e)).1 = .ok ()) :
    restore_snapshot ⟨files, some ⟨sid, ms⟩, ud⟩ t =
      .ok ((), (restore_merge_status ms (applyAfterReset t h0 e)).2) := by
  have hhr : hard_reset t = .ok ((), { t with
      workdir := filterKeys (fun p => !trackedOn t.index h0 p) t.workdir ++ h0,
      index := h0, mergeHead := none, mergeMode := none, mergeMsg := none,
      log := t.log ++ [.didHardReset] }) := by
    simp [hard_reset, hhd]
  have hfind2 : findStash ({ t with
      workdir := filterKeys (fun p => !trackedOn t.index h0 p) t.workdir ++ h0,
      index := h0, mergeHead := none, mergeMode := none, mergeMsg := none,
      log := t.log ++ [GEvent.didHardReset] } : RepoState).stashes sid =
        some e := hfind
  have happ := apply_stash_found sid _ e hfind2
  have hstate : ({ { t with
      workdir := filterKeys (fun p => !trackedOn t.index h0 p) t.workdir ++ h0,
      index := h0, mergeHead := none, mergeMode := none, mergeMsg := none,
      log := t.log ++ [GEvent.didHardReset] } with
      workdir := e.wfiles ++ ({ t with
        workdir := filterKeys (fun p => !trackedOn t.index h0 p) t.workdir ++
          h0,
        index := h0, mergeHead := none, mergeMode := none, mergeMsg := none,
        log := t.log ++ [GEvent.didHardReset] } : RepoState).workdir,
      index := e.ifiles ++ ({ t with
        workdir := filterKeys (fun p => !trackedOn t.index h0 p) t.workdir ++
          h0,
        index := h0, mergeHead := none, mergeMode := none, mergeMsg := none,
        log := t.log ++ [GEvent.didHardReset] } : RepoState).index,
      log := ({ t with
        workdir := filterKeys (fun p => !trackedOn t.index h0 p) t.workdir ++
          h0,
        index := h0, mergeHead := none, mergeMode := none, mergeMsg := none,
        log := t.log ++ [GEvent.didHardReset] } : RepoState).log ++
          [GEvent.stashApplied] } : RepoState) =
      applyAfterReset t h0 e := by
    simp [applyAfterReset]
  rw [restore_snapshot]
  simp only [hhr]
  simp only [happ, hstate]
  simp only [hok]

/-- C1 amended: `save_snapshot` followed immediately by `restore_snapshot`
is a no-op on the working directory, the index and the merge metadata,
provided the repository has a commit, no tracked path has a pending
deletion (every HEAD path is in the index, every tracked path is present
in the working directory), and — when there is nothing to stash — no merge
metadata is present (hard reset would clear it with no backup to rewrite
it).  Without the no-pending-deletion hypothesis the round trip fails: the
spec's own ordering note records that stash-apply resurrects deletions and
`restore_snapshot` (src/git.rs:80-93) has no re-delete step. -/
theorem c1_roundtrip_amended (s : RepoState) (files : List String)
    (snap : Snapshot) (s1 : RepoState) (h0 : FMap)
    (hsave : save_snapshot files s = .ok (snap, s1))
    (hhd : s.head = some h0)
    (hIdx : ∀ p ∈ keysOf h0, (lookv s.index p).isSome = true)
    (hWd : ∀ p ∈ keysOf s.index ++ keysOf h0,
      (lookv s.workdir p).isSome = true)
    (hM : nothingToStashB s = true →
      s.mergeHead = none ∧ s.mergeMode = none ∧ s.mergeMsg = none) :
    ∃ s2, restore_snapshot snap s1 = .ok ((), s2) ∧
      (∀ q, lookv s2.workdir q = lookv s.workdir q) ∧
      (∀ q, lookv s2.index q = lookv s.index q) ∧
      s2.mergeHead = s.mergeHead ∧ s2.mergeMode = s.mergeMode ∧
      s2.mergeMsg = s.mergeMsg := by
  have hheadMap : headMap s = h0 := by simp [headMap, hhd]
  have hds : get_deleted_files s = [] :=
    deleted_nil_of_workdir s
      (fun p hp => hWd p (List.mem_append.mpr (Or.inl hp)))
  rw [save_snapshot] at hsave
  cases hss : save_snapshot_stash s with
  | error e => simp [hss] at hsave
  | ok r =>
      obtain ⟨bs, s1'⟩ := r
      simp only [hss] at hsave
      rw [hds] at hsave
      simp only [delete_files, hide_partially_staged_changes] at hsave
      rcases save_snapshot_stash_ok_cases s bs s1' hss with
        ⟨hnone, _, _⟩ | ⟨_, _, hnts, hbs, hs1'⟩ |
          ⟨h0', hhd', _, hnts, hok, hbs, hs1'⟩
      · rw [hhd] at hnone
        simp at hnone
      · -- nothing to stash: no backup, hide touches nothing observable
        subst hbs
        subst hs1'
        have hg := Except.ok.inj hsave
        rw [Prod.mk.injEq] at hg
        have hsnap : snap = ⟨files, none, save_unstaged_diff s⟩ := hg.1.symm
        have hntsR : nothingToStashB
            { s with log := s.log ++ mergeReadEvents } = true := hnts
        have hgpsf : get_partially_staged_files false
            { s with log := s.log ++ mergeReadEvents } = [] := by
          rw [get_partially_staged_files,
              staged_nil_of_nothingToStash _ hntsR]
          rfl
        have hs1 : s1 = { s with
            workdir := checkoutPaths (keysOf s.index) s.index s.workdir,
            log := s.log ++ mergeReadEvents ++ [.hidUnstagedHunks] } := by
          rw [← hg.2]
          simp [hgpsf]
        subst hsnap
        subst hs1
        refine ⟨{ s with
            workdir := filterKeys (fun p => !trackedOn s.index h0 p)
              (checkoutPaths (keysOf s.index) s.index s.workdir) ++ h0,
            index := h0,
            mergeHead := none, mergeMode := none, mergeMsg := none,
            log := s.log ++ mergeReadEvents ++ [.hidUnstagedHunks] ++
              [.didHardReset] }, ?_, ?_, ?_, ?_, ?_, ?_⟩
        · simp [restore_snapshot, hard_reset, hhd]
        · -- the workdir is unchanged
          intro q
          dsimp only
          rw [lookv_append, lookv_filterKeys, lookv_checkoutPaths]
          rcases hiq : lookv s.index q with _ | a
          · rcases hhq : lookv h0 q with _ | b
            · have htr : trackedOn s.index h0 q = false := by
                simp [trackedOn, hiq, hhq]
              have hnm : q ∉ keysOf s.index := by
                intro hmem
                have := (isSome_lookv_iff_mem_keys s.index q).mpr hmem
                simp [hiq] at this
              rcases hw : lookv s.workdir q with _ | c <;>
                simp [htr, hnm, hw, hhq]
            · have hm : q ∈ keysOf h0 :=
                (isSome_lookv_iff_mem_keys h0 q).mp (by simp [hhq])
              have h2 := (nothingToStash_spec s hnts q (Or.inr
                (by rw [hheadMap]; exact hm))).2
              rw [hheadMap] at h2
              have htr : trackedOn s.index h0 q = true := by
                simp [trackedOn, hhq]
              simp [htr, h2, hhq]
          · have hm : q ∈ keysOf s.index :=
              (isSome_lookv_iff_mem_keys s.index q).mp (by simp [hiq])
            have h2 := (nothingToStash_spec s hnts q (Or.inl hm)).2
            rw [hheadMap] at h2
            have htr : trackedOn s.index h0 q = true := by
              simp [trackedOn, hiq]
            rcases hhq : lookv h0 q with _ | b
            · simp [htr, h2, hhq]
            · simp [htr, h2, hhq]
        · -- the index is unchanged
          intro q
          dsimp only
          rcases hiq : lookv s.index q with _ | a
          · rcases hhq : lookv h0 q with _ | b
            · rfl
            · have hm : q ∈ keysOf h0 :=
                (isSome_lookv_iff_mem_keys h0 q).mp (by simp [hhq])
              have := hIdx q hm
              simp [hiq] at this
          · have hm : q ∈ keysOf s.index :=
              (isSome_lookv_iff_mem_keys s.index q).mp (by simp [hiq])
            have h2 := (nothingToStash_spec s hnts q (Or.inl hm)).1
            rw [hheadMap] at h2
            rw [hiq] at h2
            exact h2.symm
        · exact (hM hnts).1.symm
        · exact (hM hnts).2.1.symm
        · exact (hM hnts).2.2.symm
      · -- a stash was created, re-applied, and the merge status restored
        rw [hhd] at hhd'
        have he0 := Option.some.inj hhd'
        subst he0
        subst hbs
        subst hs1'
        have hg := Except.ok.inj hsave
        rw [Prod.mk.injEq] at hg
        have hsnap : snap = ⟨files, some ⟨s.nextId, capturedMS s⟩,
            save_unstaged_diff s⟩ := hg.1.symm
        have hSDC : (restore_merge_status (capturedMS s)
            (postApplyState s h0)).2 = { s with
            stashes := ⟨s.nextId,
              filterKeys (fun p => trackedOn s.index h0 p) s.workdir,
              s.index⟩ :: s.stashes,
            nextId := s.nextId + 1,
            workdir := filterKeys (fun p => trackedOn s.index h0 p) s.workdir ++
              (filterKeys (fun p => !trackedOn s.index h0 p) s.workdir ++ h0),
            index := s.index ++ h0,
            log := s.log ++ mergeReadEvents ++
              [.stashSaved, .stashApplied] ++
              msWriteEvents (capturedMS s) } := by
          rw [restore_merge_status_ok _ _ hok]
          simp [postApplyState, capturedMS, Option.or_none]
        rw [hSDC] at hg
        subst hsnap
        have hhd1 : s1.head = some h0 := by
          rw [← hg.2]
          exact hhd
        have hfind1 : findStash s1.stashes s.nextId = some
            ⟨s.nextId, filterKeys (fun p => trackedOn s.index h0 p) s.workdir,
             s.index⟩ := by
          rw [← hg.2]
          exact findStash_cons_self _ _ _ _
        have hok1 : (restore_merge_status (capturedMS s)
            (applyAfterReset s1 h0
              ⟨s.nextId,
               filterKeys (fun p => trackedOn s.index h0 p) s.workdir,
               s.index⟩)).1 = .ok () := by
          rw [← hg.2, restore_merge_status_result]
          rw [restore_merge_status_result] at hok
          simp only [capturedMS, applyAfterReset, postApplyState] at hok ⊢
          exact hok
        refine ⟨(restore_merge_status (capturedMS s)
            (applyAfterReset s1 h0
              ⟨s.nextId,
               filterKeys (fun p => trackedOn s.index h0 p) s.workdir,
               s.index⟩)).2,
          restore_snapshot_some files (save_unstaged_diff s) s.nextId
            (capturedMS s) s1 h0 _ hhd1 hfind1 hok1, ?_, ?_, ?_, ?_, ?_⟩
        all_goals
          rw [restore_merge_status_ok _ _ hok1]
        · intro q
          dsimp only [applyAfterReset]
          rw [← hg.2]
          simp only [lookv_append, lookv_filterKeys, lookv_checkoutPaths]
          rcases hiq : lookv s.index q with _ | a
          · rcases hhq : lookv h0 q with _ | b
            · rcases hw : lookv s.workdir q with _ | c <;>
                simp [trackedOn, hiq, hhq, hw, lookv_append]
            · obtain ⟨w, hw⟩ := Option.isSome_iff_exists.mp
                (hWd q (List.mem_append.mpr (Or.inr
                  ((isSome_lookv_iff_mem_keys h0 q).mp (by simp [hhq])))))
              simp [trackedOn, hiq, hhq, hw]
          · obtain ⟨w, hw⟩ := Option.isSome_iff_exists.mp
              (hWd q (List.mem_append.mpr (Or.inl
                ((isSome_lookv_iff_mem_keys s.index q).mp (by simp [hiq])))))
            simp [trackedOn, hiq, hw]
        · intro q
          dsimp only [applyAfterReset]
          rcases hiq : lookv s.index q with _ | a
          · rcases hhq : lookv h0 q with _ | b
            · simp [lookv_append, hiq, hhq]
            · have := hIdx q ((isSome_lookv_iff_mem_keys h0 q).mp
                (by simp [hhq]))
              simp [hiq] at this
          · simp [lookv_append, hiq]
        · simp [applyAfterReset, capturedMS, Option.or_none]
        · simp [applyAfterReset, capturedMS, Option.or_none]
        · simp [applyAfterReset, capturedMS, Option.or_none]

/-- Run `save_snapshot` and then immediately `restore_snapshot` on the
returned snapshot; `none` when either step fails. -/
def save_then_restore (files : List String) (s : RepoState) :
    Option RepoState :=
  match save_snapshot files s with
  | .error _ => none
  | .ok (snap, s1) =>
      match restore_snapshot snap s1 with
      | .error _ => none
      | .ok (_, s2) => some s2

/-- A repository with one commit and a pending (unstaged) deletion of the
tracked file `a`. -/
def c1_del_state : RepoState :=
  { head := some [("a", "x")], index := [("a", "x")], workdir := [],
    mergeHead := none, mergeMode := none, mergeMsg := none,
    stashes := [], nextId := 0, stashFault := none,
    writeFaultHead := false, writeFaultMode := false, writeFaultMsg := false,
    log := [] }

/-- C1 counterexample: on a state with a pending workdir deletion,
`save_snapshot` succeeds but the save/restore round trip resurrects the
deleted file — restore's hard reset re-creates it from HEAD, stash-apply
does not re-delete it, and `restore_snapshot` (src/git.rs:80-93) has no
re-deletion step — so the round trip is not a no-op on the workdir. -/
theorem c1_roundtrip_counterexample :
    (save_then_restore [] c1_del_state).map
        (fun s2 => lookv s2.workdir "a") = some (some "x") ∧
      lookv c1_del_state.workdir "a" = none :=
  ⟨rfl, rfl⟩

/-- Concrete state for the round-trip witness: one commit, a staged change
to `a`, and an in-progress merge (`MERGE_HEAD` present). -/
def c1w_state : RepoState :=
  { head := some [("a", "x")], index := [("a", "y")], workdir := [("a", "y")],
    mergeHead := some "MH", mergeMode := none, mergeMsg := none,
    stashes := [], nextId := 0, stashFault := none,
    writeFaultHead := false, writeFaultMode := false, writeFaultMsg := false,
    log := [] }

/-- The snapshot `save_snapshot` returns on `c1w_state`. -/
def c1w_snap : Snapshot :=
  ⟨["a"], some ⟨0, ⟨some "MH", none, none⟩⟩, none⟩

/-- The state `save_snapshot` leaves behind on `c1w_state`. -/
def c1w_after : RepoState :=
  { head := some [("a", "x")],
    index := [("a", "y"), ("a", "x")],
    workdir := [("a", "y"), ("a", "y"), ("a", "y"), ("a", "x")],
    mergeHead := some "MH", mergeMode := none, mergeMsg := none,
    stashes := [⟨0, [("a", "y")], [("a", "y")]⟩],
    nextId := 1, stashFault := none,
    writeFaultHead := false, writeFaultMode := false, writeFaultMsg := false,
    log := [.readMerge .mhead, .readMerge .mmode, .readMerge .mmsg,
            .stashSaved, .stashApplied, .wroteMerge .mhead,
            .hidUnstagedHunks] }

/-- C1 witness: the amended round-trip theorem applied at `c1w_state`. -/
theorem c1_roundtrip_witness :
    ∃ s2, restore_snapshot c1w_snap c1w_after = .ok ((), s2) ∧
      (∀ q, lookv s2.workdir q = lookv c1w_state.workdir q) ∧
      (∀ q, lookv s2.index q = lookv c1w_state.index q) ∧
      s2.mergeHead = c1w_state.mergeHead ∧
      s2.mergeMode = c1w_state.mergeMode ∧
      s2.mergeMsg = c1w_state.mergeMsg :=
  c1_roundtrip_amended c1w_state ["a"] c1w_snap c1w_after [("a", "x")]
    (by rfl) (by rfl) (by decide) (by decide) (by decide)

/-- State for the ordering witness: one commit, a staged change and an
in-progress merge. -/
def c8w_state : RepoState :=
  { head := some [("a", "x")], index := [("a", "y")], workdir := [("a", "y")],
    mergeHead := some "MH", mergeMode := none, mergeMsg := none,
    stashes := [], nextId := 0, stashFault := none,
    writeFaultHead := false, writeFaultMode := false, writeFaultMsg := false,
    log := [] }

/-- Snapshot returned by `save_snapshot` on `c8w_state`. -/
def c8w_snap : Snapshot :=
  ⟨["a"], some ⟨0, ⟨some "MH", none, none⟩⟩, none⟩

/-- State left by `save_snapshot` on `c8w_state`. -/
def c8w_after : RepoState :=
  { head := some [("a", "x")],
    index := [("a", "y"), ("a", "x")],
    workdir := [("a", "y"), ("a", "y"), ("a", "y"), ("a", "x")],
    mergeHead := some "MH", mergeMode := none, mergeMsg := none,
    stashes := [⟨0, [("a", "y")], [("a", "y")]⟩],
    nextId := 1, stashFault := none,
    writeFaultHead := false, writeFaultMode := false, writeFaultMsg := false,
    log := [.readMerge .mhead, .readMerge .mmode, .readMerge .mmsg,
            .stashSaved, .stashApplied, .wroteMerge .mhead,
            .hidUnstagedHunks] }

/-- C8 witness: the step-ordering theorem applied at `c8w_state`. -/
theorem c8_save_step_order_witness :
    ∃ E, c8w_after.log = c8w_state.log ++ E ∧
      precedes (fun e => ∃ f, e = .readMerge f) (fun e => e = .stashSaved) E ∧
      precedes (fun e => e = .stashApplied)
        (fun e => ∃ p, e = .deletedFile p) E ∧
      precedes (fun e => ∃ p, e = .deletedFile p)
        (fun e => e = .hidUnstagedHunks) E :=
  c8_save_step_order ["a"] c8w_state c8w_snap c8w_after (by rfl)

/-- Environment for the clean-invocation witness: command fails, restore
succeeds. -/
def c3w_env : DriverEnv :=
  { openOk := true,
    stagedFiles := [⟨some "d.rs"⟩],
    saveOk := true,
    spawn := .ok (.exited 3),
    applyResult := .ok (),
    restoreResult := .ok (),
    cleanResult := .ok () }

/-- C3 witness: the amended clean-invocation theorem applied at a run whose
restore succeeds, where cleanup is reached. -/
theorem c3_clean_invocation_witness :
    DEvent.calledClean ∈ (driver_run c3w_env ["fmt"]).2 :=
  (c3_clean_invocation c3w_env ["fmt"] (by decide)).mpr (by decide)

/-- Environment for the disposition-count witness. -/
def c9w_env : DriverEnv :=
  { openOk := true,
    stagedFiles := [⟨some "e.rs"⟩],
    saveOk := true,
    spawn := .ok (.exited 0),
    applyResult := .ok (),
    restoreResult := .ok (),
    cleanResult := .ok () }

/-- C9 witness: the amended disposition theorem applied at a successful
run. -/
theorem c9_dispositions_witness :
    1 ≤ dispositionCount (driver_run c9w_env ["fmt"]).2 :=
  (c9_dispositions_at_most_once c9w_env ["fmt"]).2.2.2 (by decide)

/-- A repository with no commits and a clean state. -/
def c6w_state : RepoState :=
  { head := none, index := [], workdir := [],
    mergeHead := none, mergeMode := none, mergeMsg := none,
    stashes := [], nextId := 0, stashFault := none,
    writeFaultHead := false, writeFaultMode := false, writeFaultMsg := false,
    log := [] }

/-- C6 witness: the stash-error-policy theorem applied at a repository with
no commits. -/
theorem c6_stash_error_policy_witness :
    save_snapshot_stash c6w_state = .ok (none, c6w_state) :=
  (c6_stash_error_policy c6w_state [] "msg").1 rfl

end Offstage
